import Mathlib

/-!
Verification of the seat-assignment core of the `seatwise-face-scan`
exam-hall seating application.

The embedding below is a shallow translation of the TypeScript source:

* `Student`, `ExamHallData`, `SeatAssignment` mirror the interfaces of the
  `Index` component.
* `ExamHallConfig.handleSubmit` and `StudentRegistration.handleSubmit`
  mirror the two form-submission handlers; a `none` result means the
  handler aborted without invoking its `on…` callback.
* `findNextAvailableSeat`, `newAssignments` (the loop body of
  `generateAutomaticSeating`), `handleStudentRecognized`,
  `handleHallConfigured`, `handleStudentAdded` and `exportSeatingData`
  mirror the functions of the `Index` component; the implicit React state
  is made explicit as `IndexState`, and the UI events that mutate it are
  collected in `Event` / `step`.

JavaScript `for (let i = 1; i <= n; …)` loops become structural recursion
on the remaining iteration count; JavaScript truthiness on
`string` / `T | null` values is translated to emptiness / `Option.isSome`
checks at each use site, following the concrete type at that site.
-/

/-- `Student` record (interface `Student` / `StudentData` of the source).
`photo` is `string | null` in the source. -/
structure Student where
  id : String
  name : String
  email : String
  rollNumber : String
  photo : Option String
deriving DecidableEq, Repr

/-- Hall configuration (interface `ExamHallData`). -/
structure ExamHallData where
  name : String
  rows : Nat
  seatsPerRow : Nat
  totalSeats : Nat
deriving DecidableEq, Repr

/-- One entry of the seat-assignment list (interface `SeatAssignment`):
a 1-based (row, seat) coordinate and an optional student back-reference. -/
structure SeatAssignment where
  row : Nat
  seat : Nat
  student : Option Student
deriving DecidableEq, Repr

/-- The (row, seat) coordinate of an assignment entry. -/
def SeatAssignment.coords (a : SeatAssignment) : Nat × Nat := (a.row, a.seat)

namespace ExamHallConfig

/-- The form state of the `ExamHallConfig` component.  `rows` and
`seatsPerRow` come from `parseInt(...) || 0` and may be any integer. -/
structure HallForm where
  name : String
  rows : Int
  seatsPerRow : Int

/-- `handleSubmit` of `ExamHallConfig`: validates the form and either
aborts (`none`, after only a toast) or builds the `ExamHallData` passed to
`onHallConfigured` (`some`).  The guard is
`!formData.name || formData.rows < 1 || formData.seatsPerRow < 1`. -/
def handleSubmit (f : HallForm) : Option ExamHallData :=
  if f.name = "" ∨ f.rows < 1 ∨ f.seatsPerRow < 1 then none
  else some { name := f.name, rows := f.rows.toNat, seatsPerRow := f.seatsPerRow.toNat,
              totalSeats := (f.rows * f.seatsPerRow).toNat }

end ExamHallConfig

namespace StudentRegistration

/-- The form state of the `StudentRegistration` component. -/
structure StudentForm where
  name : String
  email : String
  rollNumber : String
  photo : Option String

/-- JavaScript truthiness of a `string | null` value: `null` and the empty
string are falsy. -/
def optStrFalsy : Option String → Bool
  | none => true
  | some s => s = ""

/-- `handleSubmit` of `StudentRegistration`: validates the form and either
aborts (`none`) or builds the `StudentData` passed to `onStudentAdded`
(`some`).  The guard is
`!formData.name || !formData.email || !formData.rollNumber || !photo`;
`now` stands for `Date.now().toString()`. -/
def handleSubmit (f : StudentForm) (now : String) : Option Student :=
  if f.name = "" ∨ f.email = "" ∨ f.rollNumber = "" ∨ optStrFalsy f.photo then none
  else some { id := now, name := f.name, email := f.email,
              rollNumber := f.rollNumber, photo := f.photo }

end StudentRegistration

/-- The React state of the `Index` component. -/
structure IndexState where
  students : List Student
  hallConfig : Option ExamHallData
  seatAssignments : List SeatAssignment
deriving DecidableEq, Repr

/-- The occupancy test inside `findNextAvailableSeat`:
`assignments.some(a => a.row === row && a.seat === seat && a.student)`. -/
def isOccupied (assignments : List SeatAssignment) (row seat : Nat) : Bool :=
  assignments.any fun a => a.row == row && a.seat == seat && a.student.isSome

/-- Inner loop of `findNextAvailableSeat`: scan `seatsLeft` consecutive
seat numbers of row `row`, starting at `seatCur`, for the first
unoccupied one. -/
def findInRow (assignments : List SeatAssignment) (row : Nat) :
    Nat → Nat → Option (Nat × Nat)
  | 0, _ => none
  | n + 1, seatCur =>
    if isOccupied assignments row seatCur then
      findInRow assignments row n (seatCur + 1)
    else
      some (row, seatCur)

/-- Outer loop of `findNextAvailableSeat`: scan `rowsLeft` consecutive
rows starting at `rowCur`, each with `seatsPerRow` seats numbered from 1. -/
def findRows (assignments : List SeatAssignment) (seatsPerRow : Nat) :
    Nat → Nat → Option (Nat × Nat)
  | 0, _ => none
  | n + 1, rowCur =>
    match findInRow assignments rowCur seatsPerRow 1 with
    | some p => some p
    | none => findRows assignments seatsPerRow n (rowCur + 1)

/-- `findNextAvailableSeat` of the `Index` component: `null` without a
hall configuration, else the first free (row, seat) in row-major scan
order, `null` when the hall is full. -/
def findNextAvailableSeat (hallConfig : Option ExamHallData)
    (assignments : List SeatAssignment) : Option (Nat × Nat) :=
  match hallConfig with
  | none => none
  | some cfg => findRows assignments cfg.seatsPerRow cfg.rows 1

/-- Inner loop of `generateAutomaticSeating`: push one assignment per seat
of row `row` (seat numbers `seatCur`, `seatCur+1`, …) while
`studentIndex < students.length`; returns the pushed entries and the
updated student index. -/
def seatLoop (row : Nat) (students : List Student) :
    Nat → Nat → Nat → List SeatAssignment × Nat
  | 0, _, idx => ([], idx)
  | n + 1, seatCur, idx =>
    if idx < students.length then
      let rest := seatLoop row students n (seatCur + 1) (idx + 1)
      (⟨row, seatCur, students[idx]?⟩ :: rest.1, rest.2)
    else
      ([], idx)

/-- Outer loop of `generateAutomaticSeating`: process `rowsLeft` rows
starting at row `rowCur`, each with `seatsPerRow` seats numbered from 1,
while `studentIndex < students.length`. -/
def rowLoop (seatsPerRow : Nat) (students : List Student) :
    Nat → Nat → Nat → List SeatAssignment
  | 0, _, _ => []
  | n + 1, rowCur, idx =>
    if idx < students.length then
      let r := seatLoop rowCur students seatsPerRow 1 idx
      r.1 ++ rowLoop seatsPerRow students n (rowCur + 1) r.2
    else
      []

/-- The `newAssignments` list built by `generateAutomaticSeating` from a
hall configuration and the current student list (the pure core of the
bulk allocator). -/
def newAssignments (cfg : ExamHallData) (students : List Student) :
    List SeatAssignment :=
  rowLoop cfg.seatsPerRow students cfg.rows 1 0

/-- `handleStudentAdded`: append the new student. -/
def handleStudentAdded (st : IndexState) (s : Student) : IndexState :=
  { st with students := st.students ++ [s] }

/-- `handleHallConfigured`: install the new configuration and reset the
assignment list. -/
def handleHallConfigured (st : IndexState) (cfg : ExamHallData) : IndexState :=
  { st with hallConfig := some cfg, seatAssignments := [] }

/-- `handleStudentRecognized`: no-op without a hall configuration;
otherwise place the student at the next available seat, or no-op when
none is found. -/
def handleStudentRecognized (st : IndexState) (s : Student) : IndexState :=
  match st.hallConfig with
  | none => st
  | some _ =>
    match findNextAvailableSeat st.hallConfig st.seatAssignments with
    | some p =>
      { st with seatAssignments := st.seatAssignments ++ [⟨p.1, p.2, some s⟩] }
    | none => st

/-- `generateAutomaticSeating`: no-op without a hall configuration;
otherwise replace the assignment list wholesale with `newAssignments`. -/
def generateAutomaticSeating (st : IndexState) : IndexState :=
  match st.hallConfig with
  | none => st
  | some cfg => { st with seatAssignments := newAssignments cfg st.students }

/-- The object serialized by `exportSeatingData`;
`generatedAt` stands for `new Date().toISOString()`. -/
structure ExportData where
  hallConfig : Option ExamHallData
  students : List Student
  assignments : List SeatAssignment
  generatedAt : String
deriving DecidableEq, Repr

/-- `exportSeatingData` of the `Index` component (the `exportData` object
it serializes): `assignments` is `seatAssignments.filter(a => a.student)`. -/
def exportSeatingData (st : IndexState) (now : String) : ExportData :=
  { hallConfig := st.hallConfig
    students := st.students
    assignments := st.seatAssignments.filter (fun a => a.student.isSome)
    generatedAt := now }

/-- The UI events that mutate the `Index` state. -/
inductive Event where
  | addStudent (s : Student)
  | configureHall (cfg : ExamHallData)
  | recognize (s : Student)
  | generateSeating

/-- One state transition of the `Index` component. -/
def step (st : IndexState) : Event → IndexState
  | .addStudent s => handleStudentAdded st s
  | .configureHall cfg => handleHallConfigured st cfg
  | .recognize s => handleStudentRecognized st s
  | .generateSeating => generateAutomaticSeating st

/-- The initial `Index` state: `useState([])`, `useState(null)`,
`useState([])`. -/
def initState : IndexState :=
  { students := [], hallConfig := none, seatAssignments := [] }

/-- The state reached from the initial state by a sequence of UI events. -/
def run (es : List Event) : IndexState :=
  es.foldl step initState

/-! ## Closed forms of the two scan loops -/

/-- Row-major closed form of the bulk allocator: seat index `i` (0-based)
goes to row `i / C + 1`, seat `i % C + 1`, and exactly
`min students.length (R * C)` entries are produced. -/
def allocSpec (R C : Nat) (students : List Student) : List SeatAssignment :=
  (List.range (min students.length (R * C))).map
    fun i => ⟨i / C + 1, i % C + 1, students[i]?⟩

/-- The row-major list of the (row, seat) coordinates of `m` consecutive
rows starting at row `rowCur`, each with seats `1 .. C`. -/
def seatsFrom (rowCur m C : Nat) : List (Nat × Nat) :=
  (List.range m).flatMap fun i => (List.range C).map fun j => (rowCur + i, 1 + j)

/-- The row-major list of all (row, seat) coordinates of an `R × C` hall. -/
def rowMajorSeats (R C : Nat) : List (Nat × Nat) :=
  seatsFrom 1 R C

/-- The predicate `findNextAvailableSeat` scans for: the coordinate is
not occupied by an entry with a non-null student. -/
def freeSeat (assignments : List SeatAssignment) (p : Nat × Nat) : Bool :=
  !(isOccupied assignments p.1 p.2)

/-- At most one assignment entry per (row, seat) pair. -/
def UniqueCoords (A : List SeatAssignment) : Prop :=
  (A.map SeatAssignment.coords).Nodup

/-- Every assignment entry carries a non-null student reference. -/
def AllAssigned (A : List SeatAssignment) : Prop :=
  ∀ a ∈ A, a.student.isSome = true

/-- Joint invariant of the assignment list maintained by the `Index`
component. -/
def AssignInv (st : IndexState) : Prop :=
  UniqueCoords st.seatAssignments ∧ AllAssigned st.seatAssignments

/-- Concrete data for ground instances: three registered students. -/
def stA : Student :=
  { id := "1", name := "Aisha", email := "a@example.com", rollNumber := "R1",
    photo := some "imgA" }

/-- Second concrete student. -/
def stB : Student :=
  { id := "2", name := "Bela", email := "b@example.com", rollNumber := "R2",
    photo := some "imgB" }

/-- Third concrete student. -/
def stC : Student :=
  { id := "3", name := "Chandra", email := "c@example.com", rollNumber := "R3",
    photo := some "imgC" }

/-- Fourth concrete student. -/
def stD : Student :=
  { id := "4", name := "Dev", email := "d@example.com", rollNumber := "R4",
    photo := some "imgD" }

/-- Fifth concrete student. -/
def stE : Student :=
  { id := "5", name := "Esha", email := "e@example.com", rollNumber := "R5",
    photo := some "imgE" }

/-- A 2-row, 2-seats-per-row hall. -/
def cfg22 : ExamHallData :=
  { name := "Hall A", rows := 2, seatsPerRow := 2, totalSeats := 4 }

/-- A 1-row, 1-seat hall. -/
def cfg11 : ExamHallData :=
  { name := "Hall B", rows := 1, seatsPerRow := 1, totalSeats := 1 }

/-- 2×2 hall with three registered students and no assignments yet. -/
def state3 : IndexState :=
  { students := [stA, stB, stC], hallConfig := some cfg22, seatAssignments := [] }

/-- 2×2 hall with no registered students. -/
def state0 : IndexState :=
  { students := [], hallConfig := some cfg22, seatAssignments := [] }

/-- 2×2 hall with five registered students (over capacity). -/
def state5 : IndexState :=
  { students := [stA, stB, stC, stD, stE], hallConfig := some cfg22,
    seatAssignments := [] }

/-- 2×2 hall with one student already seated at (1,1). -/
def stateOne : IndexState :=
  { students := [stA], hallConfig := some cfg22,
    seatAssignments := [⟨1, 1, some stA⟩] }

/-- A full 1×1 hall. -/
def stFull : IndexState :=
  { students := [stA], hallConfig := some cfg11,
    seatAssignments := [⟨1, 1, some stA⟩] }

/-- An assignment set for the 2×2 hall occupying every seat except (1,1). -/
def allButFirst : List SeatAssignment :=
  [⟨1, 2, some stB⟩, ⟨2, 1, some stC⟩, ⟨2, 2, some stD⟩]

/-- An assignment set occupying every seat of the 2×2 hall. -/
def fullHall : List SeatAssignment :=
  [⟨1, 1, some stA⟩, ⟨1, 2, some stB⟩, ⟨2, 1, some stC⟩, ⟨2, 2, some stD⟩]

/-- A hall form with an empty name. -/
def badHallForm : ExamHallConfig.HallForm :=
  { name := "", rows := 5, seatsPerRow := 4 }

/-- A student form with no photo. -/
def badStudentForm : StudentRegistration.StudentForm :=
  { name := "Zed", email := "z@example.com", rollNumber := "R9", photo := none }

/-- A concrete event sequence: register a student, configure the hall,
run the bulk allocator. -/
def es0 : List Event :=
  [Event.addStudent stA, Event.configureHall cfg22, Event.generateSeating]

/-- A coordinate lies in the row-major seat list exactly when it is a
1-based in-range coordinate. -/
theorem mem_rowMajorSeats (R C r c : Nat) :
    (r, c) ∈ rowMajorSeats R C ↔ 1 ≤ r ∧ r ≤ R ∧ 1 ≤ c ∧ c ≤ C := by
  simp only [rowMajorSeats, seatsFrom, List.mem_flatMap, List.mem_map,
    List.mem_range, Prod.mk.injEq]
  constructor
  · rintro ⟨i, hi, j, hj, h1, h2⟩
    omega
  · rintro ⟨h1, h2, h3, h4⟩
    exact ⟨r - 1, by omega, c - 1, by omega, by omega, by omega⟩

/-- Closed form of the inner allocator loop: starting with `k` remaining
seats at seat number `seatCur` and student index `idx`, it emits
`min (N - idx) k` consecutive entries and advances the index by that
amount. -/
theorem seatLoop_eq (row : Nat) (students : List Student) :
    ∀ k seatCur idx,
    seatLoop row students k seatCur idx =
      ((List.range (min (students.length - idx) k)).map
         fun j => ⟨row, seatCur + j, students[idx + j]?⟩,
       idx + min (students.length - idx) k) := by
  intro k
  induction k with
  | zero => intro seatCur idx; simp [seatLoop]
  | succ n ih =>
    intro seatCur idx
    by_cases h : idx < students.length
    · have h1 : min (students.length - idx) (n + 1) =
          min (students.length - (idx + 1)) n + 1 := by omega
      rw [seatLoop]
      simp only [h, if_true, ih, h1, List.range_succ_eq_map, List.map_cons,
        List.map_map]
      refine Prod.ext ?_ (by simp; omega)
      simp only [Nat.add_zero]
      refine List.cons_eq_cons.mpr ⟨by simp, ?_⟩
      apply List.map_congr_left
      intro j _
      simp only [Function.comp_apply, Nat.succ_eq_add_one]
      have e1 : seatCur + 1 + j = seatCur + (j + 1) := by omega
      have e2 : idx + 1 + j = idx + (j + 1) := by omega
      rw [e1, e2]
    · have h0 : students.length - idx = 0 := by omega
      rw [seatLoop]
      simp [h, h0]

/-- With zero seats per row the outer allocator loop emits nothing: the
inner loop never advances the student index. -/
theorem rowLoop_zero (students : List Student) :
    ∀ m rowCur idx, rowLoop 0 students m rowCur idx = [] := by
  intro m
  induction m with
  | zero => intro rowCur idx; simp [rowLoop]
  | succ n ih =>
    intro rowCur idx
    rw [rowLoop]
    by_cases h : idx < students.length
    · simp [h, seatLoop, ih]
    · simp [h]

/-- Closed form of the outer allocator loop (seats per row positive):
starting at row `rowCur` with student index `idx` and `m` rows to go, it
emits `min (N - idx) (m * C)` entries in row-major order. -/
theorem rowLoop_eq (C : Nat) (students : List Student) (hC : 0 < C) :
    ∀ m rowCur idx,
    rowLoop C students m rowCur idx =
      (List.range (min (students.length - idx) (m * C))).map
        fun j => ⟨rowCur + j / C, j % C + 1, students[idx + j]?⟩ := by
  intro m
  induction m with
  | zero => intro rowCur idx; simp [rowLoop]
  | succ n ih =>
    intro rowCur idx
    rw [rowLoop]
    by_cases h : idx < students.length
    · simp only [h, if_true, seatLoop_eq, ih]
      by_cases hlt : students.length - idx < C
      · have ht : min (students.length - idx) C = students.length - idx := by omega
        have h2 : students.length - (idx + (students.length - idx)) = 0 := by omega
        have h3 : min (students.length - idx) ((n + 1) * C) =
            students.length - idx := by
          have : C ≤ (n + 1) * C := Nat.le_mul_of_pos_left C (by omega)
          omega
        rw [ht, h2, h3]
        simp only [Nat.min_zero, Nat.zero_min, List.range_zero, List.map_nil,
          List.append_nil]
        apply List.map_congr_left
        intro j hj
        rw [List.mem_range] at hj
        have hjC : j < C := by omega
        rw [Nat.div_eq_of_lt hjC, Nat.mod_eq_of_lt hjC]
        have : (1 : Nat) + j = j + 1 := by omega
        rw [this]
        simp
      · have ht : min (students.length - idx) C = C := by omega
        rw [ht]
        have hsplit : min (students.length - idx) ((n + 1) * C) =
            C + min (students.length - (idx + C)) (n * C) := by
          rw [Nat.succ_mul]
          have hnc : students.length - (idx + C) = students.length - idx - C := by
            omega
          rw [hnc]
          generalize n * C = b
          omega
        rw [hsplit, List.range_add, List.map_append, List.map_map]
        congr 1
        · apply List.map_congr_left
          intro j hj
          rw [List.mem_range] at hj
          rw [Nat.div_eq_of_lt hj, Nat.mod_eq_of_lt hj]
          have : (1 : Nat) + j = j + 1 := by omega
          rw [this]
          simp
        · apply List.map_congr_left
          intro j _
          simp only [Function.comp_apply]
          have e1 : (C + j) / C = j / C + 1 := Nat.add_div_left j hC
          have e2 : (C + j) % C = j % C := Nat.add_mod_left C j
          have e3 : idx + (C + j) = idx + C + j := by omega
          have e4 : rowCur + (j / C + 1) = rowCur + 1 + j / C := by omega
          rw [e1, e2, e3, e4]
    · have h0 : students.length - idx = 0 := by omega
      simp [h, h0]

/-- `newAssignments` equals its row-major closed form `allocSpec`. -/
theorem newAssignments_eq (cfg : ExamHallData) (students : List Student) :
    newAssignments cfg students =
      allocSpec cfg.rows cfg.seatsPerRow students := by
  rcases Nat.eq_zero_or_pos cfg.seatsPerRow with hC | hC
  · simp [newAssignments, allocSpec, hC, rowLoop_zero]
  · rw [newAssignments, rowLoop_eq cfg.seatsPerRow students hC, allocSpec]
    simp only [Nat.sub_zero]
    apply List.map_congr_left
    intro j _
    simp only [Nat.zero_add]
    have : (1 : Nat) + j / cfg.seatsPerRow = j / cfg.seatsPerRow + 1 := by omega
    rw [this]

/-- Closed form of the inner finder loop: it returns the first free seat
among `k` consecutive seats of `row` starting at `seatCur`. -/
theorem findInRow_eq (A : List SeatAssignment) (row : Nat) :
    ∀ k seatCur,
    findInRow A row k seatCur =
      ((List.range k).map fun j => (row, seatCur + j)).find? (freeSeat A) := by
  intro k
  induction k with
  | zero => intro seatCur; simp [findInRow]
  | succ n ih =>
    intro seatCur
    rw [findInRow, List.range_succ_eq_map, List.map_cons, List.map_map,
      List.find?_cons]
    have hmap :
        (List.map ((fun j => (row, seatCur + j)) ∘ Nat.succ) (List.range n)) =
        (List.map (fun j => (row, seatCur + 1 + j)) (List.range n)) := by
      apply List.map_congr_left
      intro j _
      simp only [Function.comp_apply, Nat.succ_eq_add_one]
      have : seatCur + (j + 1) = seatCur + 1 + j := by omega
      rw [this]
    rw [hmap, ← ih]
    by_cases h : isOccupied A row seatCur
    · simp [freeSeat, h]
    · simp [freeSeat, h]

/-- Closed form of the outer finder loop: it returns the first free seat
in the row-major coordinate list of `m` rows starting at `rowCur`. -/
theorem findRows_eq (A : List SeatAssignment) (C : Nat) :
    ∀ m rowCur,
    findRows A C m rowCur = (seatsFrom rowCur m C).find? (freeSeat A) := by
  intro m
  induction m with
  | zero => intro rowCur; simp [findRows, seatsFrom]
  | succ n ih =>
    intro rowCur
    rw [findRows, seatsFrom, List.range_succ_eq_map, List.flatMap_cons,
      List.flatMap_map, List.find?_append]
    have h1 :
        ((List.range n).flatMap fun a =>
          List.map (fun j => (rowCur + a.succ, 1 + j)) (List.range C)) =
        seatsFrom (rowCur + 1) n C := by
      rw [seatsFrom]
      apply List.flatMap_congr
      intro i _
      apply List.map_congr_left
      intro j _
      simp only [Nat.succ_eq_add_one]
      have : rowCur + (i + 1) = rowCur + 1 + i := by omega
      rw [this]
    rw [h1, ← ih]
    have h2 :
        (List.map (fun j => (rowCur + 0, 1 + j)) (List.range C)) =
        (List.map (fun j => (rowCur, 1 + j)) (List.range C)) := by
      simp
    rw [h2, ← findInRow_eq]
    cases findInRow A rowCur C 1 <;> rfl

/-- `findNextAvailableSeat` with a configuration present equals the first
free seat of the row-major coordinate list. -/
theorem findNextAvailableSeat_eq (cfg : ExamHallData) (A : List SeatAssignment) :
    findNextAvailableSeat (some cfg) A =
      (rowMajorSeats cfg.rows cfg.seatsPerRow).find? (freeSeat A) := by
  rw [findNextAvailableSeat, rowMajorSeats, findRows_eq]

/-- The coordinates of the allocator's closed form, entry by entry. -/
theorem allocSpec_map_coords (R C : Nat) (students : List Student) :
    (allocSpec R C students).map SeatAssignment.coords =
      (List.range (min students.length (R * C))).map
        fun i => (i / C + 1, i % C + 1) := by
  rw [allocSpec, List.map_map]
  rfl

/-- The allocator's closed form has pairwise-distinct coordinates. -/
theorem allocSpec_uniqueCoords (R C : Nat) (students : List Student) :
    UniqueCoords (allocSpec R C students) := by
  rw [UniqueCoords, allocSpec_map_coords]
  rcases Nat.eq_zero_or_pos C with hC | hC
  · subst hC
    simp
  · apply List.Nodup.map ?_ (List.nodup_range _)
    intro i j hij
    simp only [Prod.mk.injEq, Nat.add_right_cancel_iff] at hij
    obtain ⟨h1, h2⟩ := hij
    have hi := Nat.div_add_mod i C
    have hj := Nat.div_add_mod j C
    rw [h1, h2] at hi
    omega

/-- Every entry of the allocator's closed form carries a student. -/
theorem allocSpec_allAssigned (R C : Nat) (students : List Student) :
    AllAssigned (allocSpec R C students) := by
  intro a ha
  rw [allocSpec, List.mem_map] at ha
  obtain ⟨i, hi, rfl⟩ := ha
  rw [List.mem_range] at hi
  have hlt : i < students.length := by omega
  simp [List.getElem?_eq_getElem hlt]

/-- An unoccupied coordinate has no entry at all in a fully-assigned
list. -/
theorem coords_ne_of_free (A : List SeatAssignment) (p : Nat × Nat)
    (hA : AllAssigned A) (hfree : freeSeat A p = true) :
    ∀ a ∈ A, a.coords ≠ p := by
  intro a ha
  rw [freeSeat, Bool.not_eq_eq_eq_not, Bool.not_true, isOccupied,
    List.any_eq_false] at hfree
  have h := hfree a ha
  simp only [Bool.and_eq_true, beq_iff_eq, not_and] at h
  intro hc
  have hrow : a.row = p.1 := congrArg Prod.fst hc
  have hseat : a.seat = p.2 := congrArg Prod.snd hc
  exact h ⟨hrow, hseat⟩ (hA a ha)

/-- Appending one entry with a non-null student at a free coordinate
preserves the assignment-list invariant. -/
theorem append_free_preserves (A : List SeatAssignment) (p : Nat × Nat)
    (s : Student) (hu : UniqueCoords A) (ha : AllAssigned A)
    (hfree : freeSeat A p = true) :
    UniqueCoords (A ++ [⟨p.1, p.2, some s⟩]) ∧
    AllAssigned (A ++ [⟨p.1, p.2, some s⟩]) := by
  have hne := coords_ne_of_free A p ha hfree
  constructor
  · rw [UniqueCoords, List.map_append, List.nodup_append]
    refine ⟨hu, List.nodup_singleton _, ?_⟩
    intro q hq hq2
    simp only [List.map_cons, List.map_nil, List.mem_singleton] at hq2
    rw [List.mem_map] at hq
    obtain ⟨a, hmem, rfl⟩ := hq
    exact hne a hmem (by rw [hq2]; rfl)
  · intro a hmem
    rw [List.mem_append] at hmem
    rcases hmem with hmem | hmem
    · exact ha a hmem
    · simp only [List.mem_singleton] at hmem
      subst hmem
      rfl

/-- Every state transition of the `Index` component preserves the
assignment-list invariant. -/
theorem step_preserves_inv (st : IndexState) (e : Event)
    (h : AssignInv st) : AssignInv (step st e) := by
  obtain ⟨hu, ha⟩ := h
  cases e with
  | addStudent s =>
    exact ⟨hu, ha⟩
  | configureHall cfg =>
    constructor
    · simp [step, handleHallConfigured, UniqueCoords]
    · intro a hmem
      simp [step, handleHallConfigured] at hmem
  | generateSeating =>
    rw [step, generateAutomaticSeating]
    cases hcfg : st.hallConfig with
    | none => exact ⟨hu, ha⟩
    | some cfg =>
      constructor
      · show UniqueCoords (newAssignments cfg st.students)
        rw [newAssignments_eq]
        exact allocSpec_uniqueCoords _ _ _
      · show AllAssigned (newAssignments cfg st.students)
        rw [newAssignments_eq]
        exact allocSpec_allAssigned _ _ _
  | recognize s =>
    rw [step, handleStudentRecognized]
    cases hcfg : st.hallConfig with
    | none => exact ⟨hu, ha⟩
    | some cfg =>
      cases hfind : findNextAvailableSeat (some cfg) st.seatAssignments with
      | none =>
        exact ⟨hu, ha⟩
      | some p =>
        rw [findNextAvailableSeat_eq] at hfind
        have hpred : freeSeat st.seatAssignments p = true :=
          List.find?_some hfind
        exact append_free_preserves st.seatAssignments p s hu ha hpred

/-- Every state reachable from the initial state by UI events satisfies
the assignment-list invariant. -/
theorem run_inv (es : List Event) : AssignInv (run es) := by
  rw [run]
  have h : ∀ (l : List Event) (st : IndexState),
      AssignInv st → AssignInv (l.foldl step st) := by
    intro l
    induction l with
    | nil => intro st h; exact h
    | cons e l ih =>
      intro st h
      exact ih (step st e) (step_preserves_inv st e h)
  apply h
  constructor
  · simp [initState, UniqueCoords]
  · intro a hmem
    simp [initState] at hmem

/-- Length of the allocator's closed form. -/
theorem allocSpec_length (R C : Nat) (students : List Student) :
    (allocSpec R C students).length = min students.length (R * C) := by
  simp [allocSpec]

/-- Entry `i` of the allocator's closed form. -/
theorem allocSpec_getElem (R C : Nat) (students : List Student) (i : Nat)
    (hi : i < min students.length (R * C)) :
    (allocSpec R C students)[i]? =
      some ⟨i / C + 1, i % C + 1, students[i]?⟩ := by
  rw [allocSpec, List.getElem?_map, List.getElem?_range hi]
  rfl

/-- With a configuration present, `generateAutomaticSeating` replaces the
assignments with the allocator's closed form. -/
theorem generateAutomaticSeating_eq (st : IndexState) (cfg : ExamHallData)
    (hcfg : st.hallConfig = some cfg) :
    (generateAutomaticSeating st).seatAssignments =
      allocSpec cfg.rows cfg.seatsPerRow st.students := by
  rw [generateAutomaticSeating, hcfg]
  exact newAssignments_eq cfg st.students

/-- With at least one row and one seat, the row-major seat list starts at
(1, 1). -/
theorem rowMajorSeats_head (R C : Nat) (hR : 1 ≤ R) (hC : 1 ≤ C) :
    ∃ rest, rowMajorSeats R C = (1, 1) :: rest := by
  obtain ⟨R1, rfl⟩ : ∃ R1, R = R1 + 1 := ⟨R - 1, by omega⟩
  obtain ⟨C1, rfl⟩ : ∃ C1, C = C1 + 1 := ⟨C - 1, by omega⟩
  rw [rowMajorSeats, seatsFrom, List.range_succ_eq_map, List.flatMap_cons,
    List.range_succ_eq_map, List.map_cons, List.cons_append]
  simp only [Nat.add_zero]
  exact ⟨_, rfl⟩

/-- C1: for a hall with R ≥ 1 rows and C ≥ 1 seats per row and N ≤ R×C
registered students, the bulk allocator `generateAutomaticSeating`
produces exactly N assignments at pairwise-distinct (row, seat)
coordinates, filling seats in row-major order from (1,1): entry i
(0-based) is at row ⌊i/C⌋+1, seat (i mod C)+1 and holds student i. -/
theorem generateAutomaticSeating_fits_rowMajor (st : IndexState)
    (cfg : ExamHallData) (hcfg : st.hallConfig = some cfg)
    (hR : 1 ≤ cfg.rows) (hC : 1 ≤ cfg.seatsPerRow)
    (hN : st.students.length ≤ cfg.rows * cfg.seatsPerRow) :
    (generateAutomaticSeating st).seatAssignments.length = st.students.length ∧
    ((generateAutomaticSeating st).seatAssignments.map
      SeatAssignment.coords).Nodup ∧
    ∀ i, i < st.students.length →
      (generateAutomaticSeating st).seatAssignments[i]? =
        some ⟨i / cfg.seatsPerRow + 1, i % cfg.seatsPerRow + 1,
              st.students[i]?⟩ := by
  rw [generateAutomaticSeating_eq st cfg hcfg]
  refine ⟨?_, allocSpec_uniqueCoords cfg.rows cfg.seatsPerRow st.students, ?_⟩
  · rw [allocSpec_length]
    omega
  · intro i hi
    exact allocSpec_getElem cfg.rows cfg.seatsPerRow st.students i (by omega)

/-- Ground instance of `generateAutomaticSeating_fits_rowMajor` at the
2×2 hall with three students. -/
theorem generateAutomaticSeating_fits_rowMajor_witness :
    state3.hallConfig = some cfg22 ∧ 1 ≤ cfg22.rows ∧ 1 ≤ cfg22.seatsPerRow ∧
    state3.students.length ≤ cfg22.rows * cfg22.seatsPerRow ∧
    ((generateAutomaticSeating state3).seatAssignments.length =
       state3.students.length ∧
     ((generateAutomaticSeating state3).seatAssignments.map
       SeatAssignment.coords).Nodup ∧
     ∀ i, i < state3.students.length →
       (generateAutomaticSeating state3).seatAssignments[i]? =
         some ⟨i / cfg22.seatsPerRow + 1, i % cfg22.seatsPerRow + 1,
               state3.students[i]?⟩) :=
  ⟨rfl, by decide, by decide, by decide,
   generateAutomaticSeating_fits_rowMajor state3 cfg22 rfl (by decide)
     (by decide) (by decide)⟩

/-- C2: with N > R×C registered students, the bulk allocator produces
exactly R×C assignments, covering precisely the first R×C students in
input-list order; the remaining students are silently dropped. -/
theorem generateAutomaticSeating_truncates (st : IndexState)
    (cfg : ExamHallData) (hcfg : st.hallConfig = some cfg)
    (hN : cfg.rows * cfg.seatsPerRow < st.students.length) :
    (generateAutomaticSeating st).seatAssignments.length =
      cfg.rows * cfg.seatsPerRow ∧
    ∀ i, i < cfg.rows * cfg.seatsPerRow →
      (generateAutomaticSeating st).seatAssignments[i]? =
        some ⟨i / cfg.seatsPerRow + 1, i % cfg.seatsPerRow + 1,
              st.students[i]?⟩ := by
  rw [generateAutomaticSeating_eq st cfg hcfg]
  constructor
  · rw [allocSpec_length]
    omega
  · intro i hi
    exact allocSpec_getElem cfg.rows cfg.seatsPerRow st.students i (by omega)

/-- Ground instance of `generateAutomaticSeating_truncates` at the 2×2
hall with five students. -/
theorem generateAutomaticSeating_truncates_witness :
    state5.hallConfig = some cfg22 ∧
    cfg22.rows * cfg22.seatsPerRow < state5.students.length ∧
    ((generateAutomaticSeating state5).seatAssignments.length =
       cfg22.rows * cfg22.seatsPerRow ∧
     ∀ i, i < cfg22.rows * cfg22.seatsPerRow →
       (generateAutomaticSeating state5).seatAssignments[i]? =
         some ⟨i / cfg22.seatsPerRow + 1, i % cfg22.seatsPerRow + 1,
               state5.students[i]?⟩) :=
  ⟨rfl, by decide,
   generateAutomaticSeating_truncates state5 cfg22 rfl (by decide)⟩

/-- C3 counterexample: for the 2×2 hall, with students [A, B, C] the bulk
allocator emits only three entries and none for seat (2,2), and with no
students it emits no entries at all — not one ∅ entry per seat as
claimed. -/
theorem generateAutomaticSeating_no_empty_entries_cex :
    (generateAutomaticSeating state3).seatAssignments =
      [⟨1, 1, some stA⟩, ⟨1, 2, some stB⟩, ⟨2, 1, some stC⟩] ∧
    (¬ ∃ a ∈ (generateAutomaticSeating state3).seatAssignments,
        a.row = 2 ∧ a.seat = 2) ∧
    (generateAutomaticSeating state0).seatAssignments = [] := by
  refine ⟨rfl, ?_, rfl⟩
  decide

/-- C3 (amended): with N < R×C students the bulk allocator produces
exactly N entries — the first N row-major seats, each with a non-null
student — and no entries for the remaining seats; in particular, for the
2×2 hall with students [A, B, C] the output is (1,1,A), (1,2,B), (2,1,C)
with no (2,2) entry, and with no students the output is empty. -/
theorem generateAutomaticSeating_partial_fill (st : IndexState)
    (cfg : ExamHallData) (hcfg : st.hallConfig = some cfg)
    (hN : st.students.length < cfg.rows * cfg.seatsPerRow) :
    (generateAutomaticSeating st).seatAssignments.length =
      st.students.length ∧
    (∀ a ∈ (generateAutomaticSeating st).seatAssignments,
      a.student.isSome = true) ∧
    (∀ i, i < st.students.length →
      (generateAutomaticSeating st).seatAssignments[i]? =
        some ⟨i / cfg.seatsPerRow + 1, i % cfg.seatsPerRow + 1,
              st.students[i]?⟩) ∧
    (generateAutomaticSeating state3).seatAssignments =
      [⟨1, 1, some stA⟩, ⟨1, 2, some stB⟩, ⟨2, 1, some stC⟩] ∧
    (generateAutomaticSeating state0).seatAssignments = [] := by
  rw [generateAutomaticSeating_eq st cfg hcfg]
  refine ⟨?_, allocSpec_allAssigned cfg.rows cfg.seatsPerRow st.students,
    ?_, rfl, rfl⟩
  · rw [allocSpec_length]
    omega
  · intro i hi
    exact allocSpec_getElem cfg.rows cfg.seatsPerRow st.students i (by omega)

/-- Ground instance of `generateAutomaticSeating_partial_fill` at the
2×2 hall with three students. -/
theorem generateAutomaticSeating_partial_fill_witness :
    state3.hallConfig = some cfg22 ∧
    state3.students.length < cfg22.rows * cfg22.seatsPerRow ∧
    ((generateAutomaticSeating state3).seatAssignments.length =
       state3.students.length ∧
     (∀ a ∈ (generateAutomaticSeating state3).seatAssignments,
       a.student.isSome = true) ∧
     (∀ i, i < state3.students.length →
       (generateAutomaticSeating state3).seatAssignments[i]? =
         some ⟨i / cfg22.seatsPerRow + 1, i % cfg22.seatsPerRow + 1,
               state3.students[i]?⟩) ∧
     (generateAutomaticSeating state3).seatAssignments =
       [⟨1, 1, some stA⟩, ⟨1, 2, some stB⟩, ⟨2, 1, some stC⟩] ∧
     (generateAutomaticSeating state0).seatAssignments = []) :=
  ⟨rfl, by decide,
   generateAutomaticSeating_partial_fill state3 cfg22 rfl (by decide)⟩

/-- C4: `findNextAvailableSeat` scans rows 1..R and seats 1..C in that
fixed nested order and returns the first coordinate with no assignment
entry holding a non-null student; with every seat but (1,1) occupied it
returns (1,1), and with a full hall it returns none. -/
theorem findNextAvailableSeat_scan_order (cfg : ExamHallData)
    (A : List SeatAssignment) :
    findNextAvailableSeat (some cfg) A =
      (rowMajorSeats cfg.rows cfg.seatsPerRow).find?
        (fun p => !(isOccupied A p.1 p.2)) ∧
    (1 ≤ cfg.rows → 1 ≤ cfg.seatsPerRow →
      (∀ p ∈ rowMajorSeats cfg.rows cfg.seatsPerRow,
        p ≠ (1, 1) → isOccupied A p.1 p.2 = true) →
      isOccupied A 1 1 = false →
      findNextAvailableSeat (some cfg) A = some (1, 1)) ∧
    ((∀ p ∈ rowMajorSeats cfg.rows cfg.seatsPerRow,
        isOccupied A p.1 p.2 = true) →
      findNextAvailableSeat (some cfg) A = none) := by
  refine ⟨findNextAvailableSeat_eq cfg A, ?_, ?_⟩
  · intro hR hC _ h11
    rw [findNextAvailableSeat_eq]
    obtain ⟨rest, hrw⟩ := rowMajorSeats_head cfg.rows cfg.seatsPerRow hR hC
    rw [hrw, List.find?_cons]
    have hp : freeSeat A (1, 1) = true := by
      rw [freeSeat, h11]
      rfl
    rw [hp]
  · intro hall
    rw [findNextAvailableSeat_eq, List.find?_eq_none]
    intro p hp
    rw [freeSeat, hall p hp]
    simp

/-- Ground instance of `findNextAvailableSeat_scan_order`: the 2×2 hall
with all seats but (1,1) occupied yields (1,1); the full hall yields
none. -/
theorem findNextAvailableSeat_scan_order_witness :
    (1 ≤ cfg22.rows ∧ 1 ≤ cfg22.seatsPerRow ∧
     (∀ p ∈ rowMajorSeats cfg22.rows cfg22.seatsPerRow,
       p ≠ (1, 1) → isOccupied allButFirst p.1 p.2 = true) ∧
     isOccupied allButFirst 1 1 = false ∧
     findNextAvailableSeat (some cfg22) allButFirst = some (1, 1)) ∧
    ((∀ p ∈ rowMajorSeats cfg22.rows cfg22.seatsPerRow,
       isOccupied fullHall p.1 p.2 = true) ∧
     findNextAvailableSeat (some cfg22) fullHall = none) :=
  ⟨⟨by decide, by decide, by decide, by decide,
    (findNextAvailableSeat_scan_order cfg22 allButFirst).2.1 (by decide)
      (by decide) (by decide) (by decide)⟩,
   ⟨by decide,
    (findNextAvailableSeat_scan_order cfg22 fullHall).2.2 (by decide)⟩⟩

/-- C5: in every state reachable by UI events the assignment list has at
most one entry per (row, seat) pair; the bulk allocator's output has
pairwise-distinct coordinates, and placing a recognized student at the
seat the finder returns preserves the uniqueness. -/
theorem seatAssignments_unique_coords (es : List Event) :
    UniqueCoords (run es).seatAssignments ∧
    (∀ cfg students, UniqueCoords (newAssignments cfg students)) ∧
    (∀ st s, UniqueCoords st.seatAssignments →
      AllAssigned st.seatAssignments →
      UniqueCoords (handleStudentRecognized st s).seatAssignments) := by
  refine ⟨(run_inv es).1, ?_, ?_⟩
  · intro cfg students
    rw [newAssignments_eq]
    exact allocSpec_uniqueCoords cfg.rows cfg.seatsPerRow students
  · intro st s hu ha
    exact (step_preserves_inv st (Event.recognize s) ⟨hu, ha⟩).1

/-- Ground instance of `seatAssignments_unique_coords`: the event
sequence register-configure-allocate, and one incremental placement into
a partially-filled 2×2 hall. -/
theorem seatAssignments_unique_coords_witness :
    UniqueCoords (run es0).seatAssignments ∧
    (UniqueCoords stateOne.seatAssignments ∧
     AllAssigned stateOne.seatAssignments ∧
     UniqueCoords (handleStudentRecognized stateOne stB).seatAssignments) :=
  ⟨(seatAssignments_unique_coords es0).1,
   show (stateOne.seatAssignments.map SeatAssignment.coords).Nodup by decide,
   show ∀ a ∈ stateOne.seatAssignments, a.student.isSome = true by decide,
   (seatAssignments_unique_coords []).2.2 stateOne stB
     (show (stateOne.seatAssignments.map SeatAssignment.coords).Nodup
       by decide)
     (show ∀ a ∈ stateOne.seatAssignments, a.student.isSome = true
       by decide)⟩

/-- C6: reconfiguring the hall resets the assignment list to empty, no
matter what was assigned before. -/
theorem handleHallConfigured_clears (st : IndexState) (cfg : ExamHallData) :
    (handleHallConfigured st cfg).seatAssignments = [] := rfl

/-- C7: when the finder reports no seat, `handleStudentRecognized` leaves
the state — in particular the assignment list — exactly unchanged. -/
theorem handleStudentRecognized_full_noop (st : IndexState) (s : Student)
    (h : findNextAvailableSeat st.hallConfig st.seatAssignments = none) :
    handleStudentRecognized st s = st := by
  rw [handleStudentRecognized]
  cases hcfg : st.hallConfig with
  | none => rfl
  | some cfg =>
    rw [hcfg] at h
    rw [h]

/-- Ground instance of `handleStudentRecognized_full_noop` at a full 1×1
hall. -/
theorem handleStudentRecognized_full_noop_witness :
    findNextAvailableSeat stFull.hallConfig stFull.seatAssignments = none ∧
    handleStudentRecognized stFull stB = stFull :=
  ⟨by decide, handleStudentRecognized_full_noop stFull stB (by decide)⟩

/-- C8: a hall-configuration submission with an empty name or a row or
seats-per-row count below 1 aborts without invoking `onHallConfigured`,
and a student-registration submission with a missing name, email, roll
number or photo aborts without invoking `onStudentAdded`. -/
theorem handleSubmit_aborts_on_invalid (f : ExamHallConfig.HallForm)
    (g : StudentRegistration.StudentForm) (now : String) :
    ((f.name = "" ∨ f.rows < 1 ∨ f.seatsPerRow < 1) →
      ExamHallConfig.handleSubmit f = none) ∧
    ((g.name = "" ∨ g.email = "" ∨ g.rollNumber = "" ∨ g.photo = none) →
      StudentRegistration.handleSubmit g now = none) := by
  constructor
  · intro h
    rw [ExamHallConfig.handleSubmit, if_pos h]
  · intro h
    rw [StudentRegistration.handleSubmit, if_pos]
    rcases h with h | h | h | h
    · exact Or.inl h
    · exact Or.inr (Or.inl h)
    · exact Or.inr (Or.inr (Or.inl h))
    · refine Or.inr (Or.inr (Or.inr ?_))
      rw [h]
      rfl

/-- Ground instance of `handleSubmit_aborts_on_invalid`: a hall form with
an empty name and a student form with no photo. -/
theorem handleSubmit_aborts_on_invalid_witness :
    (badHallForm.name = "" ∨ badHallForm.rows < 1 ∨
      badHallForm.seatsPerRow < 1) ∧
    ExamHallConfig.handleSubmit badHallForm = none ∧
    (badStudentForm.name = "" ∨ badStudentForm.email = "" ∨
      badStudentForm.rollNumber = "" ∨ badStudentForm.photo = none) ∧
    StudentRegistration.handleSubmit badStudentForm "0" = none :=
  ⟨Or.inl rfl,
   (handleSubmit_aborts_on_invalid badHallForm badStudentForm "0").1
     (Or.inl rfl),
   Or.inr (Or.inr (Or.inr rfl)),
   (handleSubmit_aborts_on_invalid badHallForm badStudentForm "0").2
     (Or.inr (Or.inr (Or.inr rfl)))⟩

/-- C9: the export object carries the current hall configuration, the
full student list, a generation timestamp, and exactly those assignment
entries whose student reference is non-null. -/
theorem exportSeatingData_shape (st : IndexState) (now : String) :
    (exportSeatingData st now).hallConfig = st.hallConfig ∧
    (exportSeatingData st now).students = st.students ∧
    (exportSeatingData st now).generatedAt = now ∧
    ∀ a, a ∈ (exportSeatingData st now).assignments ↔
      a ∈ st.seatAssignments ∧ a.student ≠ none := by
  refine ⟨rfl, rfl, rfl, ?_⟩
  intro a
  show a ∈ st.seatAssignments.filter (fun a => a.student.isSome) ↔ _
  rw [List.mem_filter, Option.isSome_iff_ne_none]

/-- C10: in every state reachable by UI events, every assignment entry
has a non-null student reference, although the `SeatAssignment` type
permits a null one. -/
theorem seatAssignments_all_nonnull (es : List Event) :
    ∀ a ∈ (run es).seatAssignments, a.student ≠ none := by
  intro a ha
  have h := (run_inv es).2 a ha
  rw [Option.isSome_iff_ne_none] at h
  exact h

/-- Ground instance of `seatAssignments_all_nonnull` at the sequence
register-configure-allocate. -/
theorem seatAssignments_all_nonnull_witness :
    (⟨1, 1, some stA⟩ : SeatAssignment) ∈ (run es0).seatAssignments ∧
    (⟨1, 1, some stA⟩ : SeatAssignment).student ≠ none :=
  ⟨by decide,
   seatAssignments_all_nonnull es0 ⟨1, 1, some stA⟩ (by decide)⟩
